import Mathlib

/-!
Verification of the subtitle-driven dubbing pipeline in `main.py`.

The file embeds the two pipelines of the source:

* `SpeechPipeline` — the whole-transcript pipeline (top of `main.py`),
  of which the claims only concern `translate_text` (lines 159-187):
  chunking of oversized text into 5000-character pieces and
  order-preserving reassembly of the per-chunk translations.

* `SrtPipeline` — the subtitle-driven pipeline (`video language
  converstion.py`, appended at line 404), of which the claims concern
  `translate_text` (lines 471-484, fallback to the source text on
  failure) and the timed-compositing core of `srt_to_dutch_speech`
  (lines 534-572).

Audio is modelled at the sample level.  The source manipulates audio
through pydub `AudioSegment` values; those library calls are given
semantics here, faithful to pydub's documented behaviour on mono
16-bit audio: `AudioSegment.silent(duration)` allocates
`duration * frame_rate / 1000` zero frames at the default frame rate
11025; `overlay(seg, position)` first brings both segments to a common
frame rate (`AudioSegment._sync` converts the lower-rate segment to
the higher rate — resampling is modelled here as nearest-neighbour
sample picking; the claims settled below never depend on resampled
sample values) and then adds samples pairwise with saturation to the
16-bit range (`audioop.add`), keeping the base segment's frame count:
an overlaid clip reaching past the end of the base is truncated, and
the result never grows.  Channels are not modelled (mono throughout).

Remote collaborators (S3, Amazon Translate, Amazon Polly, mp3
decoding) are abstracted as oracle inputs: a translation oracle
`String → Option String` (`none` = the client call raised) and, for
the compositing loop, a per-cue outcome `CueOutcome` recording whether
`generate_speech` returned `None` (line 553), whether the
`try` block of lines 558-565 raised while decoding or overlaying, or
which decoded clip it produced.  Python strings are modelled as
`List Char` where character-level slicing matters.
-/

/-! ## Sample-level audio model (pydub semantics) -/

/-- The saturation applied by pydub's mixing (`audioop.add` on
sample width 2): clamp a sum to the signed 16-bit range. -/
def clampSample (x : Int) : Int := max (-32768) (min 32767 x)

/-- A sample value a decoded 16-bit clip can actually contain. -/
def validSample (x : Int) : Prop := -32768 ≤ x ∧ x ≤ 32767

theorem clampSample_of_valid {x : Int} (h : validSample x) : clampSample x = x := by
  obtain ⟨h1, h2⟩ := h
  simp [clampSample]
  omega

/-- Core of pydub `overlay` once both segments share a frame rate:
add the clip's samples into `base` starting at frame `pos`, saturating
each sum to the 16-bit range; frames of `base` outside the clip's span
are kept, and clip samples past the end of `base` are dropped. -/
def overlaySamples (base clip : List Int) (pos : Nat) : List Int :=
  (List.range base.length).map fun i =>
    if pos ≤ i ∧ i < pos + clip.length then
      clampSample (base.getD i 0 + clip.getD (i - pos) 0)
    else base.getD i 0

@[simp] theorem length_overlaySamples (base clip : List Int) (pos : Nat) :
    (overlaySamples base clip pos).length = base.length := by
  simp [overlaySamples]

theorem getElem_overlaySamples (base clip : List Int) (pos : Nat) (i : Nat)
    (hi : i < (overlaySamples base clip pos).length) :
    (overlaySamples base clip pos)[i] =
      if pos ≤ i ∧ i < pos + clip.length then
        clampSample (base.getD i 0 + clip.getD (i - pos) 0)
      else base.getD i 0 := by
  simp [overlaySamples]

/-- Mono audio buffer: pydub `AudioSegment` restricted to the aspects
the source exercises (frame rate and decoded samples). -/
structure AudioSegment where
  frame_rate : Nat
  samples : List Int
deriving DecidableEq

/-- pydub `AudioSegment.set_frame_rate` as used by `_sync` inside
`overlay`: converts a segment to frame rate `fr`, keeping its
duration.  Resampling is modelled as nearest-neighbour sample picking
(the real library interpolates via `audioop.ratecv`; no claim below
depends on resampled values, only on lengths and on the call never
failing). -/
def AudioSegment.setFrameRate (s : AudioSegment) (fr : Nat) : AudioSegment :=
  if s.frame_rate = fr then s
  else ⟨fr, (List.range (s.samples.length * fr / s.frame_rate)).map
    fun j => s.samples.getD (j * s.frame_rate / fr) 0⟩

@[simp] theorem AudioSegment.setFrameRate_self (s : AudioSegment) :
    s.setFrameRate s.frame_rate = s := by
  simp [AudioSegment.setFrameRate]

/-- pydub `AudioSegment.silent(duration=duration_ms, frame_rate=fr)`:
`duration_ms * fr / 1000` frames of silence.  The source calls it with
the default frame rate 11025 (line 538). -/
def AudioSegment.silent (duration_ms : Nat) (fr : Nat) : AudioSegment :=
  ⟨fr, List.replicate (duration_ms * fr / 1000) 0⟩

/-- pydub `base.overlay(clip, position=position_ms)`: `_sync` brings
both segments to the higher of the two frame rates, the position (in
milliseconds) is converted to a frame offset, and the clip is added
sample-wise with 16-bit saturation; the (synced) base's frame count is
kept, so overlay never lengthens the base. -/
def AudioSegment.overlay (base clip : AudioSegment) (position_ms : Nat) : AudioSegment :=
  let fr := max base.frame_rate clip.frame_rate
  let b := base.setFrameRate fr
  let c := clip.setFrameRate fr
  ⟨fr, overlaySamples b.samples c.samples (position_ms * fr / 1000)⟩

theorem AudioSegment.overlay_matched (base clip : AudioSegment) (fr position_ms : Nat)
    (hb : base.frame_rate = fr) (hc : clip.frame_rate = fr) :
    base.overlay clip position_ms =
      ⟨fr, overlaySamples base.samples clip.samples (position_ms * fr / 1000)⟩ := by
  simp [AudioSegment.overlay, AudioSegment.setFrameRate, hb, hc]

/-! ## Subtitle-pipeline data model -/

namespace SrtPipeline

/-- One parsed SRT cue (pysrt `SubRipItem`): the loop reads
`subtitle.start.ordinal` and `subtitle.end.ordinal` (milliseconds) and
`subtitle.text`. -/
structure Subtitle where
  start_ms : Nat
  end_ms : Nat
  text : String
deriving DecidableEq

/-- Outcome of the per-cue collaborator calls inside the loop of
lines 544-568: `generate_speech` returned `None` (line 553, cue
skipped at 554-555); the `try` block of lines 558-565 raised while
decoding the mp3 or overlaying (caught at 566-568, cue skipped); or a
clip was decoded successfully. -/
inductive CueOutcome where
  | synthFailed
  | procError
  | clip (c : AudioSegment)
deriving DecidableEq

/-- Failure modes of the compositing core.  The source signals every
failure as `return None`; the branches are distinct in the code and
modelled as distinct constructors.  `emptyInput` is the branch of
lines 539-541 (`"No subtitles found in the SRT file"`). -/
inductive CompositorError where
  | emptyInput
deriving DecidableEq

/-- Loop body of lines 544-568 for one cue: a failed synthesis or a
raised exception leaves the timeline untouched (`continue`); a decoded
clip is overlaid at the cue's absolute `start.ordinal` offset
(line 565). -/
def processCue (timeline : AudioSegment) (sub : Subtitle) (out : CueOutcome) : AudioSegment :=
  match out with
  | .synthFailed => timeline
  | .procError => timeline
  | .clip c => timeline.overlay c sub.start_ms

/-- Compositing core of `srt_to_dutch_speech` (lines 534-568),
with download, parsing, export and upload abstracted away: the cue
list arrives paired with each cue's collaborator outcome.  If the list
is empty the run fails (lines 539-541); otherwise a silent timeline of
the LAST cue's `end.ordinal` milliseconds is allocated at pydub's
default 11025 frames/s (lines 536-538) and each cue is processed in
list order. -/
def srt_to_dutch_speech (cues : List (Subtitle × CueOutcome)) :
    Except CompositorError AudioSegment :=
  match cues.getLast? with
  | none => .error .emptyInput
  | some last =>
    .ok (cues.foldl (fun t c => processCue t c.1 c.2) (AudioSegment.silent last.1.end_ms 11025))

/-- `translate_text` of the subtitle pipeline (lines 471-484): the
Amazon Translate call is an oracle (`none` = the call raised); on
failure the ORIGINAL text is returned (line 484). -/
def translate_text (oracle : String → Option String) (text : String) : String :=
  match oracle text with
  | some t => t
  | none => text

end SrtPipeline

/-! ## Whole-transcript pipeline: `translate_text` chunking -/

namespace SpeechPipeline

/-- The chunk list built at line 166:
`[text[i:i+5000] for i in range(0, len(text), 5000)]`, on the
character-list model of Python strings. -/
def chunks5000 : List Char → List (List Char)
  | [] => []
  | c :: rest => ((c :: rest).take 5000) :: chunks5000 ((c :: rest).drop 5000)
termination_by l => l.length
decreasing_by simp; omega

/-- The loop of lines 169-175: translate each chunk in order through
the oracle, collecting results; a raised call (`none`) escapes to the
`except` handler, i.e. the whole computation yields `none`. -/
def translateChunks (oracle : List Char → Option (List Char)) :
    List (List Char) → Option (List (List Char))
  | [] => some []
  | ch :: rest =>
    match oracle ch with
    | none => none
    | some t => (translateChunks oracle rest).map (fun ts => t :: ts)

/-- `translate_text` of the whole-transcript pipeline (lines 159-187):
text over 5000 characters is split into consecutive 5000-character
chunks, each chunk is translated, and the results are joined with a
single space (`' '.join`, line 177); text at or under the limit is
translated in one call. -/
def translate_text (oracle : List Char → Option (List Char)) (text : List Char) :
    Option (List Char) :=
  if text.length > 5000 then
    (translateChunks oracle (chunks5000 text)).map (fun ts => List.intercalate [' '] ts)
  else oracle text

end SpeechPipeline

/-! ## Helper lemmas -/

theorem getD_replicate_zero (n i : Nat) : (List.replicate n (0 : Int)).getD i 0 = 0 := by
  by_cases h : i < n
  · rw [List.getD_eq_getElem _ _ (by simpa using h), List.getElem_replicate]
  · rw [List.getD_eq_default _ _ (by simpa using Nat.le_of_not_lt h)]

theorem getD_overlaySamples (base clip : List Int) (pos i : Nat) (hi : i < base.length) :
    (overlaySamples base clip pos).getD i 0 =
      if pos ≤ i ∧ i < pos + clip.length then
        clampSample (base.getD i 0 + clip.getD (i - pos) 0)
      else base.getD i 0 := by
  rw [List.getD_eq_getElem _ _ (by simpa using hi), getElem_overlaySamples]

namespace SrtPipeline

/-- The clip carried by a cue outcome (if any) has frame rate `fr`. -/
def clipRate (fr : Nat) : CueOutcome → Prop
  | .clip c => c.frame_rate = fr
  | _ => True

instance (fr : Nat) (o : CueOutcome) : Decidable (clipRate fr o) :=
  match o with
  | .synthFailed => .isTrue trivial
  | .procError => .isTrue trivial
  | .clip c => inferInstanceAs (Decidable (c.frame_rate = fr))

/-- The clip carried by a cue outcome (if any) holds only 16-bit
sample values — true of any clip actually decoded from an mp3. -/
def clipSamplesValid : CueOutcome → Prop
  | .clip c => ∀ x ∈ c.samples, validSample x
  | _ => True

instance (x : Int) : Decidable (validSample x) :=
  inferInstanceAs (Decidable (-32768 ≤ x ∧ x ≤ 32767))

instance (o : CueOutcome) : Decidable (clipSamplesValid o) :=
  match o with
  | .synthFailed => .isTrue trivial
  | .procError => .isTrue trivial
  | .clip c => inferInstanceAs (Decidable (∀ x ∈ c.samples, validSample x))

theorem processCue_rate_length (t : AudioSegment) (s : Subtitle) (o : CueOutcome)
    (ht : t.frame_rate = 11025) (ho : clipRate 11025 o) :
    (processCue t s o).frame_rate = 11025 ∧
      (processCue t s o).samples.length = t.samples.length := by
  cases o with
  | synthFailed => exact ⟨ht, rfl⟩
  | procError => exact ⟨ht, rfl⟩
  | clip c =>
    rw [processCue, AudioSegment.overlay_matched t c 11025 s.start_ms ht ho]
    simp

theorem foldl_processCue_rate_length (cues : List (Subtitle × CueOutcome))
    (t : AudioSegment) (ht : t.frame_rate = 11025)
    (hr : ∀ c ∈ cues, clipRate 11025 c.2) :
    (cues.foldl (fun t c => processCue t c.1 c.2) t).frame_rate = 11025 ∧
      (cues.foldl (fun t c => processCue t c.1 c.2) t).samples.length
        = t.samples.length := by
  induction cues generalizing t with
  | nil => exact ⟨ht, rfl⟩
  | cons c rest ih =>
    have hc := processCue_rate_length t c.1 c.2 ht (hr c (List.mem_cons_self c rest))
    have := ih (processCue t c.1 c.2) hc.1 (fun x hx => hr x (List.mem_cons_of_mem c hx))
    exact ⟨this.1, this.2.trans hc.2⟩

theorem srt_eq_ok (cues : List (Subtitle × CueOutcome)) (h : cues ≠ []) :
    srt_to_dutch_speech cues =
      .ok (cues.foldl (fun t c => processCue t c.1 c.2)
        (AudioSegment.silent (cues.getLast h).1.end_ms 11025)) := by
  rw [srt_to_dutch_speech, List.getLast?_eq_getLast cues h]

end SrtPipeline

/-! ## C3, C9 -/

/-- C3: on an empty cue list the compositing core fails with the
empty-input error (the distinct `return None` branch of lines 539-541,
"No subtitles found in the SRT file") and never produces an output
buffer of some fallback length. -/
theorem SrtPipeline.empty_cues_error :
    SrtPipeline.srt_to_dutch_speech [] = .error SrtPipeline.CompositorError.emptyInput ∧
      ∀ t, SrtPipeline.srt_to_dutch_speech [] ≠ .ok t := by
  exact ⟨rfl, fun t h => by simp [SrtPipeline.srt_to_dutch_speech] at h⟩

/-- C9: when the translation call fails (`none`), the subtitle
pipeline's `translate_text` returns the original source text (line
484): the failed run is indistinguishable from a run whose translator
is the identity, and any downstream synthesis consumes the source
text. -/
theorem SrtPipeline.translate_fallback_source_text
    (oracle : String → Option String) (text : String) (h : oracle text = none) :
    SrtPipeline.translate_text oracle text = text ∧
      SrtPipeline.translate_text oracle text
        = SrtPipeline.translate_text (fun s => some s) text ∧
      ∀ (α : Type) (synth : String → α),
        synth (SrtPipeline.translate_text oracle text) = synth text := by
  have h1 : SrtPipeline.translate_text oracle text = text := by
    rw [SrtPipeline.translate_text, h]
  exact ⟨h1, by rw [h1]; rfl, fun α synth => by rw [h1]⟩

theorem SrtPipeline.translate_fallback_source_text_witness :
    SrtPipeline.translate_text (fun _ => none) "hello" = "hello" :=
  (SrtPipeline.translate_fallback_source_text (fun _ => none) "hello" rfl).1

/-! ## C8: chunking of oversized text -/

theorem SpeechPipeline.chunks5000_flatten : ∀ l : List Char,
    (SpeechPipeline.chunks5000 l).flatten = l
  | [] => by rw [SpeechPipeline.chunks5000]; rfl
  | c :: rest => by
    rw [SpeechPipeline.chunks5000, List.flatten_cons,
      SpeechPipeline.chunks5000_flatten ((c :: rest).drop 5000)]
    exact List.take_append_drop 5000 (c :: rest)
termination_by l => l.length
decreasing_by simp; omega

theorem SpeechPipeline.chunks5000_length_le : ∀ l : List Char,
    ∀ ch ∈ SpeechPipeline.chunks5000 l, ch.length ≤ 5000
  | [] => by rw [SpeechPipeline.chunks5000]; intro ch hch; simp at hch
  | c :: rest => by
    rw [SpeechPipeline.chunks5000]
    intro ch hch
    rcases List.mem_cons.mp hch with h | h
    · subst h; rw [List.length_take]; exact min_le_left _ _
    · exact SpeechPipeline.chunks5000_length_le ((c :: rest).drop 5000) ch h
termination_by l => l.length
decreasing_by simp; omega

theorem SpeechPipeline.translateChunks_map (f : List Char → List Char) :
    ∀ l : List (List Char),
      SpeechPipeline.translateChunks (fun c => some (f c)) l = some (l.map f)
  | [] => rfl
  | ch :: rest => by
    rw [SpeechPipeline.translateChunks, SpeechPipeline.translateChunks_map f rest]
    rfl

/-- C8: text longer than the 5000-character request limit is split
into consecutive chunks of at most 5000 characters that concatenate
back to the whole text in order; each chunk is translated and the
per-chunk translations are reassembled in the original chunk order
(joined with single spaces, line 177). -/
theorem SpeechPipeline.chunking_order_preserving (f : List Char → List Char)
    (text : List Char) (h : 5000 < text.length) :
    (∀ ch ∈ SpeechPipeline.chunks5000 text, ch.length ≤ 5000) ∧
      (SpeechPipeline.chunks5000 text).flatten = text ∧
      SpeechPipeline.translate_text (fun c => some (f c)) text
        = some (List.intercalate [' '] ((SpeechPipeline.chunks5000 text).map f)) := by
  refine ⟨SpeechPipeline.chunks5000_length_le text, SpeechPipeline.chunks5000_flatten text, ?_⟩
  rw [SpeechPipeline.translate_text, if_pos h, SpeechPipeline.translateChunks_map]
  rfl

theorem SpeechPipeline.chunking_order_preserving_witness :
    (∀ ch ∈ SpeechPipeline.chunks5000 (List.replicate 5001 'a'), ch.length ≤ 5000) ∧
      (SpeechPipeline.chunks5000 (List.replicate 5001 'a')).flatten
        = List.replicate 5001 'a' ∧
      SpeechPipeline.translate_text (fun c => some (id c)) (List.replicate 5001 'a')
        = some (List.intercalate [' ']
            ((SpeechPipeline.chunks5000 (List.replicate 5001 'a')).map id)) :=
  SpeechPipeline.chunking_order_preserving id (List.replicate 5001 'a')
    (by rw [List.length_replicate]; omega)

/-! ## C1, C6, C10: run shape of the compositing loop -/

namespace SrtPipeline

theorem getLast?_append_cons_of_ne_nil (pre post : List (Subtitle × CueOutcome))
    (x : Subtitle × CueOutcome) (h : post ≠ []) :
    (pre ++ x :: post).getLast? = post.getLast? := by
  rw [show pre ++ x :: post = (pre ++ [x]) ++ post by simp, List.getLast?_append,
    List.getLast?_eq_getLast post h]
  rfl

theorem getLast?_append_of_ne_nil (pre post : List (Subtitle × CueOutcome))
    (h : post ≠ []) : (pre ++ post).getLast? = post.getLast? := by
  rw [List.getLast?_append, List.getLast?_eq_getLast post h]
  rfl

theorem foldl_processCue_skip (pre post : List (Subtitle × CueOutcome))
    (s : Subtitle) (o : CueOutcome) (ho : ∀ t sub, processCue t sub o = t)
    (init : AudioSegment) :
    (pre ++ (s, o) :: post).foldl (fun t c => processCue t c.1 c.2) init
      = (pre ++ post).foldl (fun t c => processCue t c.1 c.2) init := by
  rw [List.foldl_append, List.foldl_append, List.foldl_cons, ho]

end SrtPipeline

/-- C1: for every non-empty cue list whose decoded clips share the
timeline's 11025 frames/s format, the run succeeds and the output
buffer is exactly the frame count of a `last cue's end_ms`-millisecond
silent timeline — the last cue in ORIGINAL list order, whatever the
other cues' end times, however many clips are absent, and whatever the
durations of the decoded clips. -/
theorem SrtPipeline.timeline_length_eq_last_cue_end
    (cues : List (SrtPipeline.Subtitle × SrtPipeline.CueOutcome)) (h : cues ≠ [])
    (hr : ∀ c ∈ cues, SrtPipeline.clipRate 11025 c.2) :
    ∃ t, SrtPipeline.srt_to_dutch_speech cues = .ok t ∧ t.frame_rate = 11025 ∧
      t.samples.length = (cues.getLast h).1.end_ms * 11025 / 1000 := by
  rw [SrtPipeline.srt_eq_ok cues h]
  refine ⟨_, rfl, ?_⟩
  have hfold := SrtPipeline.foldl_processCue_rate_length cues
    (AudioSegment.silent (cues.getLast h).1.end_ms 11025) rfl hr
  refine ⟨hfold.1, ?_⟩
  rw [hfold.2]
  simp [AudioSegment.silent]

theorem SrtPipeline.timeline_length_eq_last_cue_end_witness :
    ∃ t, SrtPipeline.srt_to_dutch_speech
        [(⟨0, 3, "a"⟩, .synthFailed), (⟨1, 2, "b"⟩, .synthFailed)] = .ok t ∧
      t.frame_rate = 11025 ∧ t.samples.length = 2 * 11025 / 1000 :=
  SrtPipeline.timeline_length_eq_last_cue_end
    [(⟨0, 3, "a"⟩, .synthFailed), (⟨1, 2, "b"⟩, .synthFailed)] (by decide) (by decide)

/-- C6: a cue whose synthesis failed (`generate_speech` returned
`None`, line 553) is skipped: the run is identical to the run without
that cue (its interval stays silent unless another clip covers it),
the remaining cues are still processed, and the run does not fail.
(The skipped cue is taken before the end of the list: the very last
cue still pins the timeline length even when its clip is absent.) -/
theorem SrtPipeline.absent_clip_skipped
    (pre post : List (SrtPipeline.Subtitle × SrtPipeline.CueOutcome))
    (s : SrtPipeline.Subtitle) (h : post ≠ []) :
    SrtPipeline.srt_to_dutch_speech (pre ++ (s, .synthFailed) :: post)
        = SrtPipeline.srt_to_dutch_speech (pre ++ post) ∧
      ∃ t, SrtPipeline.srt_to_dutch_speech (pre ++ (s, .synthFailed) :: post) = .ok t := by
  have e1 := SrtPipeline.getLast?_append_cons_of_ne_nil pre post (s, .synthFailed) h
  have e2 := SrtPipeline.getLast?_append_of_ne_nil pre post h
  have efold := SrtPipeline.foldl_processCue_skip pre post s .synthFailed
    (fun t sub => rfl)
  have emain : SrtPipeline.srt_to_dutch_speech (pre ++ (s, .synthFailed) :: post)
      = SrtPipeline.srt_to_dutch_speech (pre ++ post) := by
    rw [SrtPipeline.srt_to_dutch_speech, SrtPipeline.srt_to_dutch_speech, e1, e2]
    rw [List.getLast?_eq_getLast post h]
    simp only [efold]
  refine ⟨emain, ?_⟩
  rw [emain, SrtPipeline.srt_to_dutch_speech,
    SrtPipeline.getLast?_append_of_ne_nil pre post h, List.getLast?_eq_getLast post h]
  exact ⟨_, rfl⟩

theorem SrtPipeline.absent_clip_skipped_witness :
    SrtPipeline.srt_to_dutch_speech
        [(⟨0, 5, "a"⟩, .synthFailed), (⟨0, 1, "b"⟩, .synthFailed)]
      = SrtPipeline.srt_to_dutch_speech [(⟨0, 1, "b"⟩, .synthFailed)] ∧
      ∃ t, SrtPipeline.srt_to_dutch_speech
        [(⟨0, 5, "a"⟩, .synthFailed), (⟨0, 1, "b"⟩, .synthFailed)] = .ok t :=
  SrtPipeline.absent_clip_skipped [] [(⟨0, 1, "b"⟩, .synthFailed)] ⟨0, 5, "a"⟩ (by decide)

/-- C10: an exception raised inside the `try` block of lines 558-565 —
decoding the generated mp3 or overlaying it — is caught (lines
566-568) and only skips that cue: the run equals the run without that
cue, still succeeds, and the output keeps the full timeline length
pinned by the last cue. -/
theorem SrtPipeline.decode_overlay_error_skipped
    (pre post : List (SrtPipeline.Subtitle × SrtPipeline.CueOutcome))
    (s : SrtPipeline.Subtitle) (h : post ≠ [])
    (hr : ∀ c ∈ pre ++ post, SrtPipeline.clipRate 11025 c.2) :
    SrtPipeline.srt_to_dutch_speech (pre ++ (s, .procError) :: post)
        = SrtPipeline.srt_to_dutch_speech (pre ++ post) ∧
      ∃ t, SrtPipeline.srt_to_dutch_speech (pre ++ (s, .procError) :: post) = .ok t ∧
        t.samples.length = (post.getLast h).1.end_ms * 11025 / 1000 := by
  have hne : pre ++ post ≠ [] := by
    intro hnil
    exact h (List.append_eq_nil.mp hnil).2
  have e1 := SrtPipeline.getLast?_append_cons_of_ne_nil pre post (s, .procError) h
  have efold := SrtPipeline.foldl_processCue_skip pre post s .procError (fun t sub => rfl)
  have emain : SrtPipeline.srt_to_dutch_speech (pre ++ (s, .procError) :: post)
      = SrtPipeline.srt_to_dutch_speech (pre ++ post) := by
    rw [SrtPipeline.srt_to_dutch_speech, SrtPipeline.srt_to_dutch_speech, e1,
      SrtPipeline.getLast?_append_of_ne_nil pre post h, List.getLast?_eq_getLast post h]
    simp only [efold]
  have eglast : (pre ++ post).getLast hne = post.getLast h := by
    have := SrtPipeline.getLast?_append_of_ne_nil pre post h
    rw [List.getLast?_eq_getLast (pre ++ post) hne, List.getLast?_eq_getLast post h] at this
    exact Option.some_inj.mp this
  refine ⟨emain, ?_⟩
  rw [emain, SrtPipeline.srt_eq_ok (pre ++ post) hne]
  refine ⟨_, rfl, ?_⟩
  have hfold := SrtPipeline.foldl_processCue_rate_length (pre ++ post)
    (AudioSegment.silent ((pre ++ post).getLast hne).1.end_ms 11025) rfl hr
  rw [hfold.2, eglast]
  simp [AudioSegment.silent]

theorem SrtPipeline.decode_overlay_error_skipped_witness :
    SrtPipeline.srt_to_dutch_speech
        [(⟨0, 5, "a"⟩, .procError), (⟨0, 2, "b"⟩, .synthFailed)]
      = SrtPipeline.srt_to_dutch_speech [(⟨0, 2, "b"⟩, .synthFailed)] ∧
      ∃ t, SrtPipeline.srt_to_dutch_speech
          [(⟨0, 5, "a"⟩, .procError), (⟨0, 2, "b"⟩, .synthFailed)] = .ok t ∧
        t.samples.length = 2 * 11025 / 1000 :=
  SrtPipeline.decode_overlay_error_skipped [] [(⟨0, 2, "b"⟩, .synthFailed)] ⟨0, 5, "a"⟩
    (by decide) (by decide)

/-! ## C7: no fail-fast on sample-format mismatch -/

/-- C7 counterexample: a run whose only clip has frame rate 22050
while the timeline is allocated at 11025 frames/s COMPLETES — the
overlay library silently converts to the common rate and mixes; the
code has no sample-rate check and no mismatch error, so the run is not
aborted. -/
theorem SrtPipeline.mismatched_rate_run_completes_cex :
    (SrtPipeline.srt_to_dutch_speech
      [(⟨0, 1, "x"⟩, .clip ⟨22050, [100]⟩)]).isOk = true := by decide

/-- C7 amended: a clip whose sample rate differs from the timeline
format never aborts the run: the overlay call converts it to the
common rate and mixes it (and any exception in per-cue processing is
caught and skips only that cue), so every non-empty cue list yields an
output, whatever the clips' formats. -/
theorem SrtPipeline.run_total_any_clip_format
    (cues : List (SrtPipeline.Subtitle × SrtPipeline.CueOutcome)) (h : cues ≠ []) :
    ∃ t, SrtPipeline.srt_to_dutch_speech cues = .ok t := by
  rw [SrtPipeline.srt_eq_ok cues h]
  exact ⟨_, rfl⟩

theorem SrtPipeline.run_total_any_clip_format_witness :
    ∃ t, SrtPipeline.srt_to_dutch_speech
      [(⟨0, 1, "y"⟩, .clip ⟨44100, [5, 7]⟩), (⟨0, 2, "z"⟩, .clip ⟨8000, [9]⟩)] = .ok t :=
  SrtPipeline.run_total_any_clip_format
    [(⟨0, 1, "y"⟩, .clip ⟨44100, [5, 7]⟩), (⟨0, 2, "z"⟩, .clip ⟨8000, [9]⟩)] (by decide)

/-! ## C2: list order matters through the length quirk -/

instance {ε α : Type} [DecidableEq ε] [DecidableEq α] : DecidableEq (Except ε α) := fun a b =>
  match a, b with
  | .error x, .error y =>
    if h : x = y then isTrue (by subst h; rfl)
    else isFalse (fun hc => h (by cases hc; rfl))
  | .ok x, .ok y =>
    if h : x = y then isTrue (by subst h; rfl)
    else isFalse (fun hc => h (by cases hc; rfl))
  | .error x, .ok y => isFalse (fun hc => by cases hc)
  | .ok x, .error y => isFalse (fun hc => by cases hc)

/-- C2 counterexample: the same two (cue, clip) placements presented
in `start_ms`-descending instead of ascending order give a DIFFERENT
output: the timeline length is pinned to the last listed cue's
`end_ms`, so the descending run is 1 ms of buffer instead of 2 ms. -/
theorem SrtPipeline.reorder_changes_output_cex :
    SrtPipeline.srt_to_dutch_speech
        [(⟨0, 1, "a"⟩, .synthFailed), (⟨1, 2, "b"⟩, .synthFailed)] ≠
      SrtPipeline.srt_to_dutch_speech
        [(⟨1, 2, "b"⟩, .synthFailed), (⟨0, 1, "a"⟩, .synthFailed)] := by decide

theorem overlaySamples_zero_comm (n p1 p2 : Nat) (a b : List Int)
    (ha : ∀ x ∈ a, validSample x) (hb : ∀ x ∈ b, validSample x) :
    overlaySamples (overlaySamples (List.replicate n 0) a p1) b p2 =
      overlaySamples (overlaySamples (List.replicate n 0) b p2) a p1 := by
  apply List.ext_getElem
  · simp
  intro i hly hry
  have hin : i < n := by simpa using hly
  rw [getElem_overlaySamples, getElem_overlaySamples,
    getD_overlaySamples _ _ _ _ (by simpa using hin),
    getD_overlaySamples _ _ _ _ (by simpa using hin), getD_replicate_zero]
  by_cases ca : p1 ≤ i ∧ i < p1 + a.length <;> by_cases cb : p2 ≤ i ∧ i < p2 + b.length <;>
    simp only [ca, cb, and_self, ite_true, ite_false, zero_add]
  have hia : i - p1 < a.length := by omega
  have hib : i - p2 < b.length := by omega
  have va : validSample (a.getD (i - p1) 0) := by
    rw [List.getD_eq_getElem a 0 hia]
    exact ha _ (List.getElem_mem hia)
  have vb : validSample (b.getD (i - p2) 0) := by
    rw [List.getD_eq_getElem b 0 hib]
    exact hb _ (List.getElem_mem hib)
  rw [clampSample_of_valid va, clampSample_of_valid vb, Int.add_comm]

theorem SrtPipeline.processCue_comm_zero (n : Nat)
    (s1 s2 : SrtPipeline.Subtitle) (o1 o2 : SrtPipeline.CueOutcome)
    (hr1 : SrtPipeline.clipRate 11025 o1) (hv1 : SrtPipeline.clipSamplesValid o1)
    (hr2 : SrtPipeline.clipRate 11025 o2) (hv2 : SrtPipeline.clipSamplesValid o2) :
    SrtPipeline.processCue
        (SrtPipeline.processCue ⟨11025, List.replicate n 0⟩ s1 o1) s2 o2 =
      SrtPipeline.processCue
        (SrtPipeline.processCue ⟨11025, List.replicate n 0⟩ s2 o2) s1 o1 := by
  cases o1 with
  | synthFailed => rfl
  | procError => rfl
  | clip c1 =>
    cases o2 with
    | synthFailed => rfl
    | procError => rfl
    | clip c2 =>
      simp only [SrtPipeline.processCue]
      rw [AudioSegment.overlay_matched _ c1 11025 s1.start_ms rfl hr1,
        AudioSegment.overlay_matched _ c2 11025 s2.start_ms rfl hr2,
        AudioSegment.overlay_matched _ c2 11025 s2.start_ms rfl hr2,
        AudioSegment.overlay_matched _ c1 11025 s1.start_ms rfl hr1]
      exact congrArg (fun l => AudioSegment.mk 11025 l)
        (overlaySamples_zero_comm n _ _ c1.samples c2.samples hv1 hv2)

/-- C2 amended: swapping the two cues of a two-cue list preserves the
output PROVIDED both cues carry the same `end_ms`, decoded clips share
the timeline's 11025 frames/s format, and clip samples are in the
16-bit range — each clip lands at its absolute offset, not at a
list-position-dependent one.  In general reordering changes the
output, because the timeline length is pinned to the LAST listed cue's
`end_ms` (see the counterexample), and saturation can make three or
more overlapping clips order-dependent. -/
theorem SrtPipeline.swap_two_cues_same_end
    (s1 s2 : SrtPipeline.Subtitle) (o1 o2 : SrtPipeline.CueOutcome)
    (hend : s1.end_ms = s2.end_ms)
    (hr1 : SrtPipeline.clipRate 11025 o1) (hv1 : SrtPipeline.clipSamplesValid o1)
    (hr2 : SrtPipeline.clipRate 11025 o2) (hv2 : SrtPipeline.clipSamplesValid o2) :
    SrtPipeline.srt_to_dutch_speech [(s1, o1), (s2, o2)]
      = SrtPipeline.srt_to_dutch_speech [(s2, o2), (s1, o1)] := by
  simp only [SrtPipeline.srt_to_dutch_speech, List.getLast?_cons_cons,
    List.getLast?_singleton, List.foldl_cons, List.foldl_nil]
  rw [hend]
  exact congrArg Except.ok
    (SrtPipeline.processCue_comm_zero (s2.end_ms * 11025 / 1000) s1 s2 o1 o2 hr1 hv1 hr2 hv2)

theorem SrtPipeline.swap_two_cues_same_end_witness :
    SrtPipeline.srt_to_dutch_speech
        [(⟨5, 9, "l"⟩, .clip ⟨11025, [1000]⟩), (⟨0, 9, "e"⟩, .clip ⟨11025, [2000, 3000]⟩)]
      = SrtPipeline.srt_to_dutch_speech
        [(⟨0, 9, "e"⟩, .clip ⟨11025, [2000, 3000]⟩), (⟨5, 9, "l"⟩, .clip ⟨11025, [1000]⟩)] :=
  SrtPipeline.swap_two_cues_same_end ⟨5, 9, "l"⟩ ⟨0, 9, "e"⟩
    (.clip ⟨11025, [1000]⟩) (.clip ⟨11025, [2000, 3000]⟩) rfl
    (by decide) (by decide) (by decide) (by decide)

/-! ## C4: overlapping clips mix by saturated addition -/

/-- C4: when two decoded clips (timeline format, 16-bit samples) are
placed so their frame spans overlap, every frame of the output inside
the overlap equals the sample-wise sum of the two clips' samples at
that frame, saturated to the 16-bit range. -/
theorem SrtPipeline.overlap_is_saturated_sum
    (s1 s2 : SrtPipeline.Subtitle) (a b : AudioSegment)
    (hra : a.frame_rate = 11025) (hrb : b.frame_rate = 11025)
    (hva : ∀ x ∈ a.samples, validSample x) (_hvb : ∀ x ∈ b.samples, validSample x)
    (i : Nat) (hi : i < s2.end_ms * 11025 / 1000)
    (h1 : s1.start_ms * 11025 / 1000 ≤ i ∧ i < s1.start_ms * 11025 / 1000 + a.samples.length)
    (h2 : s2.start_ms * 11025 / 1000 ≤ i ∧ i < s2.start_ms * 11025 / 1000 + b.samples.length) :
    ∃ t, SrtPipeline.srt_to_dutch_speech [(s1, .clip a), (s2, .clip b)] = .ok t ∧
      t.samples.getD i 0 =
        clampSample (a.samples.getD (i - s1.start_ms * 11025 / 1000) 0
          + b.samples.getD (i - s2.start_ms * 11025 / 1000) 0) := by
  simp only [SrtPipeline.srt_to_dutch_speech, List.getLast?_cons_cons,
    List.getLast?_singleton, List.foldl_cons, List.foldl_nil, SrtPipeline.processCue]
  rw [AudioSegment.overlay_matched _ a 11025 s1.start_ms rfl hra,
    AudioSegment.overlay_matched _ b 11025 s2.start_ms rfl hrb]
  refine ⟨_, rfl, ?_⟩
  simp only [AudioSegment.silent]
  rw [getD_overlaySamples _ _ _ _ (by simpa using hi), if_pos h2,
    getD_overlaySamples _ _ _ _ (by simpa using hi), if_pos h1,
    getD_replicate_zero, zero_add]
  have hia : i - s1.start_ms * 11025 / 1000 < a.samples.length := by
    obtain ⟨h1a, h1b⟩ := h1
    omega
  have va : validSample (a.samples.getD (i - s1.start_ms * 11025 / 1000) 0) := by
    rw [List.getD_eq_getElem _ 0 hia]
    exact hva _ (List.getElem_mem hia)
  rw [clampSample_of_valid va]

theorem SrtPipeline.overlap_is_saturated_sum_witness :
    ∃ t, SrtPipeline.srt_to_dutch_speech
        [(⟨0, 1, "a"⟩, .clip ⟨11025, [30000, 30000]⟩),
          (⟨0, 1, "b"⟩, .clip ⟨11025, [10000]⟩)] = .ok t ∧
      t.samples.getD 0 0 = clampSample (30000 + 10000) :=
  SrtPipeline.overlap_is_saturated_sum ⟨0, 1, "a"⟩ ⟨0, 1, "b"⟩
    ⟨11025, [30000, 30000]⟩ ⟨11025, [10000]⟩ rfl rfl (by decide) (by decide)
    0 (by decide) (by decide) (by decide)

/-! ## C5: clips reaching past the timeline end are truncated -/

/-- C5: a decoded clip (timeline format) whose placement reaches past
the end of the timeline is truncated silently: the run succeeds, the
output keeps the timeline's frame count, frames before the clip's
offset stay silent (nothing wraps around), and the portion from the
offset to the end is exactly the clip's first frames (saturated into
the silent buffer) — the rest of the clip is dropped. -/
theorem SrtPipeline.overflow_clip_truncated
    (s : SrtPipeline.Subtitle) (c : AudioSegment) (hc : c.frame_rate = 11025)
    (hover : s.end_ms * 11025 / 1000 < s.start_ms * 11025 / 1000 + c.samples.length) :
    ∃ t, SrtPipeline.srt_to_dutch_speech [(s, .clip c)] = .ok t ∧
      t.samples.length = s.end_ms * 11025 / 1000 ∧
      (∀ i, i < s.start_ms * 11025 / 1000 → t.samples.getD i 0 = 0) ∧
      t.samples.drop (s.start_ms * 11025 / 1000) =
        (c.samples.take (s.end_ms * 11025 / 1000 - s.start_ms * 11025 / 1000)).map
          clampSample := by
  simp only [SrtPipeline.srt_to_dutch_speech, List.getLast?_singleton, List.foldl_cons,
    List.foldl_nil, SrtPipeline.processCue]
  rw [AudioSegment.overlay_matched _ c 11025 s.start_ms rfl hc]
  refine ⟨_, rfl, ?_, ?_, ?_⟩
  · simp [AudioSegment.silent]
  · intro i hip
    by_cases hiL : i < s.end_ms * 11025 / 1000
    · simp only [AudioSegment.silent]
      rw [getD_overlaySamples _ _ _ _ (by simpa using hiL),
        if_neg (by omega), getD_replicate_zero]
    · exact List.getD_eq_default _ _ (by simpa [AudioSegment.silent] using Nat.le_of_not_lt hiL)
  · simp only [AudioSegment.silent]
    apply List.ext_getElem
    · simp only [List.length_drop, length_overlaySamples, List.length_replicate,
        List.length_map, List.length_take]
      omega
    · intro j hj1 hj2
      have hjlt : j < s.end_ms * 11025 / 1000 - s.start_ms * 11025 / 1000 := by
        simpa using hj1
      have hjc : j < c.samples.length := by omega
      rw [List.getElem_drop, getElem_overlaySamples _ _ _ _
          (by simp; omega),
        if_pos (by constructor <;> omega), getD_replicate_zero, zero_add,
        Nat.add_sub_cancel_left, List.getElem_map, List.getElem_take,
        List.getD_eq_getElem _ 0 hjc]

theorem SrtPipeline.overflow_clip_truncated_witness :
    ∃ t, SrtPipeline.srt_to_dutch_speech
        [(⟨0, 1, "x"⟩, .clip ⟨11025, List.replicate 20 5⟩)] = .ok t ∧
      t.samples.length = 1 * 11025 / 1000 ∧
      (∀ i, i < 0 * 11025 / 1000 → t.samples.getD i 0 = 0) ∧
      t.samples.drop (0 * 11025 / 1000) =
        ((List.replicate 20 (5 : Int)).take (1 * 11025 / 1000 - 0 * 11025 / 1000)).map
          clampSample :=
  SrtPipeline.overflow_clip_truncated ⟨0, 1, "x"⟩ ⟨11025, List.replicate 20 5⟩ rfl
    (by decide)
